import Mathlib

/-!
Verification of the Zenith static blog generator (TypeScript sources).

Each definition in this file is a shallow embedding of a function of the
repository, translated from the TypeScript source it names; machine-level
details that the claims depend on (JS string methods, truthiness, timer
semantics, array sort stability) are modelled explicitly and documented at
each definition.
-/

set_option maxRecDepth 8000

namespace Zenith

/-! ## JS string primitives

The slug functions use `String.prototype.toLowerCase`, `trim` and
`String.prototype.replace` with the regexes appearing in
`src/frontmatter-validator.ts` (`generateSlug`) and `src/build.ts`
(`slugify`).  Strings are modelled as their `List Char` of code points. -/

/-- The character class of the JS regex `\s` (which is also exactly the set
removed by `String.prototype.trim`): TAB LF VT FF CR SP NBSP, OGHAM SP,
U+2000..U+200A, LS, PS, NNBSP, MMSP, IDEOGRAPHIC SP, ZWNBSP. -/
def isJsWs (c : Char) : Bool :=
  c.toNat == 9 || c.toNat == 10 || c.toNat == 11 || c.toNat == 12 ||
  c.toNat == 13 || c.toNat == 32 || c.toNat == 160 || c.toNat == 5760 ||
  (8192 ≤ c.toNat && c.toNat ≤ 8202) || c.toNat == 8232 ||
  c.toNat == 8233 || c.toNat == 8239 || c.toNat == 8287 ||
  c.toNat == 12288 || c.toNat == 65279

/-- `String.prototype.toLowerCase` restricted to its effect on the code
points relevant here: the ASCII range (A-Z maps to a-z, everything else in
ASCII is fixed); non-ASCII lowercase mappings never survive the
`[^a-z0-9\s-]` strip that follows, so they are modelled as the identity. -/
def jsToLower (c : Char) : Char :=
  if 65 ≤ c.toNat ∧ c.toNat ≤ 90 then Char.ofNat (c.toNat + 32) else c

/-- Membership in `[a-z0-9]`. -/
def isLowerAlnum (c : Char) : Bool :=
  (97 ≤ c.toNat && c.toNat ≤ 122) || (48 ≤ c.toNat && c.toNat ≤ 57)

/-- The character class kept by `replace(/[^a-z0-9\s-]/g, "")`. -/
def keptBySlug (c : Char) : Bool :=
  isLowerAlnum c || isJsWs c || c == '-'

/-- `replace(/X+/g, rep)` for a character class `p`: every maximal run of
`p`-characters is replaced by the single character `rep`.  The boolean flag
records whether the previous character was part of a run (global regex
maximal munch). -/
def collapseRuns (p : Char → Bool) (rep : Char) : Bool → List Char → List Char
  | _, [] => []
  | prev, c :: cs =>
      if p c then
        if prev then collapseRuns p rep true cs
        else rep :: collapseRuns p rep true cs
      else c :: collapseRuns p rep false cs

/-- `String.prototype.trim` on a character list. -/
def trimL (l : List Char) : List Char :=
  ((l.dropWhile isJsWs).reverse.dropWhile isJsWs).reverse

/-- `trim` on strings. -/
def trimS (s : String) : String :=
  ⟨trimL s.data⟩

/-- `slugify` / `generateSlug` on a character list, mirroring
`src/build.ts` lines 462-469 and `src/frontmatter-validator.ts` lines
128-135 (the two bodies are identical): lowercase, strip every character
outside `[a-z0-9\s-]`, replace each whitespace run by "-", collapse each
hyphen run to a single "-", then trim. -/
def slugifyL (l : List Char) : List Char :=
  trimL (collapseRuns (fun c => c == '-') '-' false
    (collapseRuns isJsWs '-' false ((l.map jsToLower).filter keptBySlug)))

/-- `slugify` (`src/build.ts`) / `Utils.slugify` on strings. -/
def slugify (s : String) : String :=
  ⟨slugifyL s.data⟩

/-- `FrontmatterValidator.generateSlug` (`src/frontmatter-validator.ts`
lines 128-135); its body is character-for-character the same as
`slugify`. -/
def generateSlug (title : String) : String :=
  slugify title

/-! ## Frontmatter validation

`FrontmatterValidator.validate` (`src/frontmatter-validator.ts`, the
richer variant with the categories field) receives a
`Record<string, unknown>` and inspects only JS truthiness,
`typeof x === "string"` and `Array.isArray`; frontmatter values are
modelled accordingly. -/

/-- A frontmatter value as produced by the YAML parser. -/
inductive JsVal where
  | str (s : String)
  | list (l : List JsVal)
  | num (n : Int)
  | boolean (b : Bool)

/-- The five frontmatter fields `validate` reads; a missing key reads as
`undefined` (`none`). -/
structure RawFM where
  title : Option JsVal
  date : Option JsVal
  description : Option JsVal
  slug : Option JsVal
  categories : Option JsVal

/-- Required-field loop body (lines 32-44): the field is recorded (trimmed)
iff it is present, truthy, a string, and nonblank after trim; otherwise a
missing-required warning is pushed. -/
def reqValue (v : Option JsVal) : Option String :=
  match v with
  | some (.str s) => if s != "" && trimS s != "" then some (trimS s) else none
  | _ => none

/-- Optional scalar branch (description, slug; lines 57-59): recorded iff
present, truthy and a string.  A whitespace-only string is truthy, so it is
recorded as "" after trim. -/
def optValue (v : Option JsVal) : Option String :=
  match v with
  | some (.str s) => if s != "" then some (trimS s) else none
  | _ => none

/-- Categories branch (lines 47-56): a truthy array keeps its trimmed
nonblank string entries, a truthy string becomes a singleton, anything else
leaves the field unset. -/
def catsValue (v : Option JsVal) : Option (List String) :=
  match v with
  | some (.list l) =>
      some (l.filterMap (fun x => match x with
        | .str s => if trimS s != "" then some (trimS s) else none
        | _ => none))
  | some (.str s) => if s != "" then some [trimS s] else none
  | _ => none

def isDigitCh (c : Char) : Bool := 48 ≤ c.toNat && c.toNat ≤ 57

/-- The anchored regex of line 63: four digits, hyphen, two digits, hyphen,
two digits. -/
def dateShape (s : String) : Bool :=
  match s.data with
  | [a, b, c, d, h1, e, f, h2, g, i] =>
      isDigitCh a && isDigitCh b && isDigitCh c && isDigitCh d && h1 == '-' &&
      isDigitCh e && isDigitCh f && h2 == '-' && isDigitCh g && isDigitCh i
  | _ => false

def isLeapYear (y : Nat) : Bool :=
  (y % 4 == 0 && y % 100 != 0) || y % 400 == 0

def daysInMonth (y m : Nat) : Nat :=
  if m = 2 then (if isLeapYear y then 29 else 28)
  else if m = 4 ∨ m = 6 ∨ m = 9 ∨ m = 11 then 30
  else 31

def digitVal (c : Char) : Nat := c.toNat - 48

/-- `!isNaN(new Date(s).getTime())` for a string already matching
`dateShape`: the ECMAScript ISO date-only parser accepts it iff the month is
1..12 and the day fits the month (leap years included). -/
def isoDateOk (s : String) : Bool :=
  match s.data with
  | [a, b, c, d, _, e, f, _, g, i] =>
      let y := ((digitVal a * 10 + digitVal b) * 10 + digitVal c) * 10 + digitVal d
      let m := digitVal e * 10 + digitVal f
      let day := digitVal g * 10 + digitVal i
      1 ≤ m && m ≤ 12 && 1 ≤ day && day ≤ daysInMonth y m
  | _ => false

/-- The warnings `validate` can log (content abbreviated to its
discriminating data; warnings are log-only). -/
inductive Warning where
  | missingRequired (fieldName : String)
  | badDateFormat
  | badDateValue
  | generatedSlug (slug : String)
  | missingDescription
  | noCategories
  | invalidCategories (cats : List String)
deriving DecidableEq

/-- `TemplateEngine.PREDEFINED_CATEGORIES` (`src/template-engine.ts`
lines 40-65), 24 labels. -/
def PREDEFINED_CATEGORIES : List String :=
  ["Web Development", "Privacy", "Tutorial", "Guide", "Review", "News",
   "Opinion", "Technology", "Programming", "Frontend", "Backend", "DevOps",
   "Design", "UX/UI", "Mobile", "Security", "Open Source", "Learning",
   "API", "Database", "Cloud", "Data Science", "Personal", "Tips & Tricks"]

/-- The invalid-category filter of `TemplateEngine.validateCategories`
(lines 67-87): entries not in the predefined list. -/
def invalidCategoriesOf (cats : List String) : List String :=
  cats.filter (fun c => decide (c ∉ PREDEFINED_CATEGORIES))

/-- The category list after the defaulting step of lines 92-97: absent or
empty becomes the sentinel `["uncategorized"]`. -/
def finalCategories (data : RawFM) : List String :=
  match catsValue data.categories with
  | none => ["uncategorized"]
  | some [] => ["uncategorized"]
  | some cs => cs

/-- `Partial<PostMetadata>`. -/
structure MetaP where
  title : Option String
  date : Option String
  description : Option String
  slug : Option String
  categories : Option (List String)
deriving DecidableEq

structure ValidationResult where
  isValid : Bool
  warnings : List Warning
  metadata : MetaP
deriving DecidableEq

/-- The final `isValid` computation of lines 114-119: every required field
is present, a string, and nonblank after trim. -/
def fieldOk (v : Option String) : Bool :=
  match v with
  | some t => t != "" && trimS t != ""
  | none => false

/-- `FrontmatterValidator.validate` (`src/frontmatter-validator.ts` lines
25-126), with the filename argument dropped (it only decorates warning
text). -/
def validate (data : RawFM) : ValidationResult :=
  let titleV := reqValue data.title
  let dateV := reqValue data.date
  let wReq :=
    (if titleV.isNone then [Warning.missingRequired "title"] else []) ++
    (if dateV.isNone then [Warning.missingRequired "date"] else [])
  let descV := optValue data.description
  let slugV := optValue data.slug
  let catsV := catsValue data.categories
  let wDate :=
    match dateV with
    | some d =>
        if !dateShape d then [Warning.badDateFormat]
        else if !isoDateOk d then [Warning.badDateValue]
        else []
    | none => []
  let slugStep :=
    if slugV.getD "" == "" then
      match titleV with
      | some t => (some (generateSlug t), [Warning.generatedSlug (generateSlug t)])
      | none => (slugV, [])
    else (slugV, [])
  let descStep :=
    if descV.getD "" == "" then
      (some (titleV.getD "Blog post"), [Warning.missingDescription])
    else (descV, [])
  let wCats := if (catsV.getD []).isEmpty then [Warning.noCategories] else []
  let cats := finalCategories data
  let invalid := invalidCategoriesOf cats
  let meta : MetaP := ⟨titleV, dateV, descStep.1, slugStep.1, some cats⟩
  let warnings := wReq ++ wDate ++ slugStep.2 ++ descStep.2 ++ wCats
  if invalid = [] then
    { isValid := fieldOk titleV && fieldOk dateV
      warnings := warnings
      metadata := meta }
  else
    { isValid := false
      warnings := warnings ++ [Warning.invalidCategories invalid]
      metadata := meta }

/-- Frontmatter with an empty title and a valid date. -/
def sampleEmptyTitle : RawFM :=
  ⟨some (.str ""), some (.str "2025-01-01"), none, none, none⟩

/-- Frontmatter `title: "Hi"`, `date: "2025-01-01"`, no slug. -/
def sampleHi : RawFM :=
  ⟨some (.str "Hi"), some (.str "2025-01-01"), none, none, none⟩

/-! ## Staleness check and style compilation

`StyleCompiler` in `src/lib/processors/style-compiler.ts`.  A file on disk
is modelled by `Option Nat`: `none` when the file does not exist, `some t`
when it exists with mtime `t`. -/

/-- `getModTime` (lines 115-121): `fs.stat(file).mtimeMs` with any error
(missing file) caught and mapped to 0. -/
def modTime (f : Option Nat) : Nat := f.getD 0

/-- `Math.max(0, ...times)` over the mod times of a glob result
(`getLatestTemplateTime` line 103, `getLatestScssTime` line 112). -/
def maxTime (files : List (Option Nat)) : Nat :=
  files.foldl (fun acc f => max acc (modTime f)) 0

/-- `needsRecompile` (lines 72-88): the output is stale when the main scss
file, the newest template/src file, or the newest scss file is strictly
newer than the output.  `getLatestTemplateTime` concatenates the template
glob and the src glob before taking the max. -/
def needsRecompile (scss output : Option Nat)
    (templateFiles srcFiles scssFiles : List (Option Nat)) : Bool :=
  decide (modTime output < modTime scss) ||
  decide (modTime output < maxTime (templateFiles ++ srcFiles)) ||
  decide (modTime output < maxTime scssFiles)

/-- The accumulation loop of `compileStylesIfNeeded` (`src/build.ts` lines
165-175): walk the .scss files, keeping the largest mtime seen, skipping
files whose stat fails. -/
def latestLoop (files : List (Option Nat)) : Nat :=
  files.foldl
    (fun acc f => match f with
      | none => acc
      | some t => if acc < t then t else acc) 0

/-- The staleness test of `compileStylesIfNeeded` (`src/build.ts` lines
155-196): `scssModTime > cssModTime` with the css time 0 when the file is
absent. -/
def compileStylesStale (scssFiles : List (Option Nat)) (css : Option Nat) : Bool :=
  decide (modTime css < latestLoop scssFiles)

/-- The style output files on disk (`dist/styles/main.css` and its source
map sibling). -/
structure StyleDisk where
  css : Option String
  cssMap : Option String
deriving DecidableEq

/-- `StyleCompiler.compileIfNeeded` (lines 15-70).  The external pipeline
(sass.compile, postcss+autoprefixer, csso in production) is the capability
`compileResult`: `.ok (css, srcMap)` on success, `.error msg` when it
throws.  The whole body sits in a try/catch whose catch only logs a
warning, so the embedding is total: it always returns a new disk state and
a log, never an exception. -/
def compileIfNeeded (scss output : Option Nat)
    (tf sf ssf : List (Option Nat)) (isProduction : Bool) (disk : StyleDisk)
    (compileResult : Except String (String × Option String)) :
    StyleDisk × List String :=
  if !needsRecompile scss output tf sf ssf then
    (disk, ["SCSS compilation skipped (no changes)"])
  else
    match compileResult with
    | .error e => (disk, ["SCSS compilation failed: " ++ e])
    | .ok (css, srcMap) =>
        ({ css := some css
           cssMap :=
             if isProduction then disk.cssMap
             else
               match srcMap with
               | some m => some m
               | none => disk.cssMap },
         ["Compiling SCSS..."])

/-! ## Watch-mode debounce

`debouncedBuild` (`src/lib/build-orchestrator.ts` lines 57-69, delay 100)
and the generic `debounce` helper of the successor orchestrator (delay
300): each notification clears any pending timer and schedules a new one
at its own time plus the delay.  A pending timer is cancelled iff the next
notification arrives strictly before its deadline; after the final
notification the pending timer always fires, and each firing invokes
`build()` once. -/

/-- Number of timer firings produced by a burst of notifications at the
given (non-decreasing) times. -/
def debounceFires (delay : Nat) : List Nat → Nat
  | [] => 0
  | [_] => 1
  | t1 :: t2 :: rest =>
      (if t1 + delay ≤ t2 then 1 else 0) + debounceFires delay (t2 :: rest)

/-! ## Posts and the content pipeline ordering

`PostProcessor.loadPosts` (`src/lib/generators/sitemap-generator.ts`
second section, lines 86-130 of that file; identically
`BlogGenerator.loadPosts` in `src/build.ts`).  A `Post` carries the
validated metadata plus the body; `dateVal` is the time value
`new Date(post.date).getTime()` that the sort comparator
`(a, b) => new Date(b.date).getTime() - new Date(a.date).getTime()`
compares. -/

structure Post where
  title : String
  dateStr : String
  dateVal : Nat
  description : String
  slug : String
  categories : List String
  htmlContent : String
deriving DecidableEq

/-- Stable descending insertion: `p` (originally later) goes after exactly
the elements strictly newer than it, hence after elements with equal
`dateVal`.  `Array.prototype.sort` is required to be stable (ES2019), and
a stable sort under this comparator is extensionally exactly this
insertion sort. -/
def insertDesc (p : Post) : List Post → List Post
  | [] => [p]
  | q :: qs => if p.dateVal < q.dateVal then q :: insertDesc p qs else p :: q :: qs

/-- `validPosts.sort((a, b) => dateB - dateA)` as a stable sort. -/
def sortPostsDesc : List Post → List Post
  | [] => []
  | p :: ps => insertDesc p (sortPostsDesc ps)

/-- `loadPosts`: the per-file results in directory-enumeration order
(`none` for a source failing validation, mirroring the `null` entries) are
filtered out, then the valid posts are sorted date-descending. -/
def loadPosts (candidates : List (Option Post)) : List Post :=
  sortPostsDesc (candidates.filterMap id)

/-- A sample post with the given parsed date-time value. -/
def mkPost (t : Nat) : Post :=
  ⟨"Title", "2025-01-01", t, "Desc", "slug", ["Tutorial"], "<p>x</p>"⟩

/-! ## Feed generation (src/feed-generator.ts)

`config.siteTitle` and `config.siteDescription` are the constants of
`src/config.ts`; `config.siteUrl` and the external date renderings
(`toUTCString`, `toISOString`, applied to the post's parsed time value)
are parameters. -/

def zenithSiteTitle : String := "Zenith"

def zenithSiteDescription : String := "A minimalistic personal blog"

def zenithBaseUrl : String := "https://domain.com"

def postUrl (siteUrl : String) (p : Post) : String :=
  siteUrl ++ "/posts/" ++ p.slug ++ "/"

/-- `latestPosts = posts.slice(0, 10)` in `generateRSS` (line 10). -/
def rssLatest (posts : List Post) : List Post := posts.take 10

/-- `latestPosts = posts.slice(0, 10)` in `generateAtom` (line 49). -/
def atomLatest (posts : List Post) : List Post := posts.take 10

/-- One `<item>` of the RSS channel (lines 22-28). -/
def rssItemXml (siteUrl : String) (fmt : Nat → String) (p : Post) : String :=
  "    <item>\n      <title><![CDATA[" ++ p.title ++
  "]]></title>\n      <description><![CDATA[" ++ p.description ++
  "]]></description>\n      <link>" ++ postUrl siteUrl p ++
  "</link>\n      <guid isPermaLink=\"true\">" ++ postUrl siteUrl p ++
  "</guid>\n      <pubDate>" ++ fmt p.dateVal ++ "</pubDate>\n    </item>"

/-- The item list of `generateRSS`. -/
def generateRSSItems (siteUrl : String) (fmt : Nat → String)
    (posts : List Post) : List String :=
  (rssLatest posts).map (rssItemXml siteUrl fmt)

/-- `FeedGenerator.generateRSS` (lines 9-46): the channel envelope around
the joined items; `now` is `new Date().toUTCString()`. -/
def generateRSS (siteUrl : String) (fmt : Nat → String) (now : String)
    (posts : List Post) : String :=
  let pubDate :=
    match rssLatest posts with
    | [] => now
    | p :: _ => fmt p.dateVal
  let items := String.intercalate "\n" (generateRSSItems siteUrl fmt posts)
  "<?xml version=\"1.0\" encoding=\"UTF-8\"?>\n<rss version=\"2.0\" xmlns:atom=\"http://www.w3.org/2005/Atom\">\n  <channel>\n    <title><![CDATA[" ++
  zenithSiteTitle ++ "]]></title>\n    <description><![CDATA[" ++
  zenithSiteDescription ++ "]]></description>\n    <link>" ++ siteUrl ++
  "</link>\n    <atom:link href=\"" ++ siteUrl ++
  "/feed.xml\" rel=\"self\" type=\"application/rss+xml\"/>\n    <language>en-us</language>\n    <lastBuildDate>" ++
  now ++ "</lastBuildDate>\n    <pubDate>" ++ pubDate ++
  "</pubDate>\n    <ttl>60</ttl>\n" ++ items ++ "\n  </channel>\n</rss>"

/-- One `<entry>` of the Atom feed (lines 60-67). -/
def atomEntryXml (siteUrl : String) (iso : Nat → String) (p : Post) : String :=
  "  <entry>\n    <title type=\"html\"><![CDATA[" ++ p.title ++
  "]]></title>\n    <link href=\"" ++ postUrl siteUrl p ++
  "\"/>\n    <updated>" ++ iso p.dateVal ++ "</updated>\n    <id>" ++
  postUrl siteUrl p ++ "</id>\n    <content type=\"html\"><![CDATA[" ++
  p.htmlContent ++ "]]></content>\n    <summary type=\"html\"><![CDATA[" ++
  p.description ++ "]]></summary>\n  </entry>"

/-- The entry list of `generateAtom`. -/
def generateAtomEntries (siteUrl : String) (iso : Nat → String)
    (posts : List Post) : List String :=
  (atomLatest posts).map (atomEntryXml siteUrl iso)

/-- `FeedGenerator.generateAtom` (lines 48-82); `now` is
`new Date().toISOString()`. -/
def generateAtom (siteUrl : String) (iso : Nat → String) (now : String)
    (posts : List Post) : String :=
  let updated :=
    match atomLatest posts with
    | [] => now
    | p :: _ => iso p.dateVal
  let entries := String.intercalate "\n" (generateAtomEntries siteUrl iso posts)
  "<?xml version=\"1.0\" encoding=\"utf-8\"?>\n<feed xmlns=\"http://www.w3.org/2005/Atom\">\n  <title type=\"text\">" ++
  zenithSiteTitle ++ "</title>\n  <link href=\"" ++ siteUrl ++
  "/atom.xml\" rel=\"self\"/>\n  <link href=\"" ++ siteUrl ++
  "\"/>\n  <updated>" ++ updated ++ "</updated>\n  <id>" ++ siteUrl ++
  "/</id>\n  <subtitle type=\"html\"><![CDATA[" ++ zenithSiteDescription ++
  "]]></subtitle>\n  <generator uri=\"https://github.com/woulve/zenith\" version=\"1.0.0\">Zenith</generator>\n" ++
  entries ++ "\n</feed>"

/-- Fifteen posts with strictly decreasing dates. -/
def fifteenPosts : List Post := (List.range 15).map (fun i => mkPost (14 - i))

/-! ## Pagination and sitemap -/

/-- `PaginationInfo` (`src/build.ts` lines 17-24). -/
structure PaginationInfo where
  currentPage : Nat
  totalPages : Nat
  hasNext : Bool
  hasPrev : Bool
  nextUrl : Option String
  prevUrl : Option String
deriving DecidableEq

/-- One generated index page: its output path (relative to the dist root)
and the data driving its template rendering. -/
structure IndexPage where
  outPath : List String
  pagination : PaginationInfo
  pagePosts : List Post
deriving DecidableEq

/-- `Math.ceil(n / S)` on naturals, for S > 0. -/
def jsCeil (n S : Nat) : Nat := (n + S - 1) / S

/-- `generatePaginatedPages` (`src/build.ts` lines 299-365, and the same
page arithmetic in the `PageGenerator` variant): `totalPages =
Math.ceil(posts.length / postsPerPage)` — with no floor of 1 — and one
page per `1 ≤ page ≤ totalPages`, page 1 written at the dist root. -/
def generatePaginatedPages (postsPerPage : Nat) (posts : List Post) :
    List IndexPage :=
  let totalPages := jsCeil posts.length postsPerPage
  (List.range totalPages).map (fun i =>
    let page := i + 1
    { outPath :=
        if page = 1 then ["index.html"]
        else ["page", toString page, "index.html"]
      pagination :=
        { currentPage := page
          totalPages := totalPages
          hasNext := decide (page < totalPages)
          hasPrev := decide (1 < page)
          nextUrl :=
            if page < totalPages then
              some (if page = 1 then "/page/2/"
                    else "/page/" ++ toString (page + 1) ++ "/")
            else none
          prevUrl :=
            if 1 < page then
              some (if page = 2 then "/"
                    else "/page/" ++ toString (page - 1) ++ "/")
            else none }
      pagePosts := (posts.drop ((page - 1) * postsPerPage)).take postsPerPage })

/-- One `<url>` of the sitemap. -/
structure UrlEntry where
  loc : String
  lastmod : String
  changefreq : String
  priority : String
deriving DecidableEq

/-- The `Set<string>` of normalized category slugs in insertion order. -/
def categorySlugSet (posts : List Post) : List String :=
  posts.foldl
    (fun acc p =>
      p.categories.foldl
        (fun acc2 c =>
          if acc2.contains (slugify c) then acc2 else acc2 ++ [slugify c])
        acc)
    []

/-- The url list of `SitemapGenerator.generate`
(`src/lib/generators/sitemap-generator.ts` lines 10-53, identically
`BlogGenerator.generateSitemap`): the root, one entry per post, the
secondary index pages 2..totalPages, and one entry per category slug;
`todayStr` is today's ISO date. -/
def sitemapUrls (postsPerPage : Nat) (todayStr : String)
    (posts : List Post) : List UrlEntry :=
  let headUrls : List UrlEntry :=
    { loc := zenithBaseUrl, lastmod := todayStr, changefreq := "weekly",
      priority := "1.0" } ::
    posts.map (fun p =>
      { loc := zenithBaseUrl ++ "/posts/" ++ p.slug ++ "/",
        lastmod := p.dateStr, changefreq := "monthly", priority := "0.8" })
  let totalPages := jsCeil posts.length postsPerPage
  let pageUrls := (List.range' 2 (totalPages - 1)).map (fun page =>
    { loc := zenithBaseUrl ++ "/page/" ++ toString page ++ "/",
      lastmod := todayStr, changefreq := "weekly", priority := "0.7" })
  let catUrls := (categorySlugSet posts).map (fun slug =>
    { loc := zenithBaseUrl ++ "/categories/" ++ slug ++ "/",
      lastmod := todayStr, changefreq := "weekly", priority := "0.6" })
  headUrls ++ pageUrls ++ catUrls

/-! ### Properties of the slug pipeline -/

theorem collapseRuns_mem {p : Char → Bool} {rep : Char} :
    ∀ (b : Bool) (l : List Char), ∀ c ∈ collapseRuns p rep b l,
      c = rep ∨ (c ∈ l ∧ p c = false) := by
  intro b l
  induction l generalizing b with
  | nil => intro c hc; simp [collapseRuns] at hc
  | cons d ds ih =>
      intro c hc
      by_cases hd : p d = true
      · cases b with
        | true =>
            simp only [collapseRuns, hd, if_pos, if_true] at hc
            rcases ih true c hc with h | ⟨h1, h2⟩
            · exact Or.inl h
            · exact Or.inr ⟨List.mem_cons_of_mem _ h1, h2⟩
        | false =>
            simp only [collapseRuns, hd, if_true] at hc
            rcases List.mem_cons.mp hc with h | h
            · exact Or.inl h
            · rcases ih true c h with h | ⟨h1, h2⟩
              · exact Or.inl h
              · exact Or.inr ⟨List.mem_cons_of_mem _ h1, h2⟩
      · have hd' : p d = false := by simpa using hd
        simp only [collapseRuns, hd', Bool.false_eq_true, if_false] at hc
        rcases List.mem_cons.mp hc with h | h
        · exact Or.inr ⟨h ▸ List.mem_cons_self _ _, h ▸ hd'⟩
        · rcases ih false c h with h | ⟨h1, h2⟩
          · exact Or.inl h
          · exact Or.inr ⟨List.mem_cons_of_mem _ h1, h2⟩

theorem collapseRuns_eq_self_of_not {p : Char → Bool} {rep : Char} :
    ∀ (b : Bool) (l : List Char), (∀ c ∈ l, p c = false) →
      collapseRuns p rep b l = l := by
  intro b l
  induction l generalizing b with
  | nil => intro _; rfl
  | cons d ds ih =>
      intro h
      have hd : p d = false := h d (List.mem_cons_self _ _)
      simp only [collapseRuns, hd, Bool.false_eq_true, if_false]
      exact congrArg _ (ih false (fun c hc => h c (List.mem_cons_of_mem _ hc)))

theorem collapseRuns_head_not {p : Char → Bool} {rep : Char} :
    ∀ (l : List Char) (x : Char),
      (collapseRuns p rep true l).head? = some x → p x = false := by
  intro l
  induction l with
  | nil => intro x hx; simp [collapseRuns] at hx
  | cons d ds ih =>
      intro x hx
      by_cases hd : p d = true
      · simp only [collapseRuns, hd, if_true] at hx
        exact ih x hx
      · have hd' : p d = false := by simpa using hd
        simp only [collapseRuns, hd', Bool.false_eq_true, if_false,
          List.head?_cons, Option.some.injEq] at hx
        exact hx ▸ hd'

theorem collapseRuns_chain {p : Char → Bool} {rep : Char} :
    ∀ (b : Bool) (l : List Char),
      List.Chain' (fun a c => p a = false ∨ p c = false)
        (collapseRuns p rep b l) := by
  intro b l
  induction l generalizing b with
  | nil => simp [collapseRuns]
  | cons d ds ih =>
      by_cases hd : p d = true
      · cases b with
        | true => simpa only [collapseRuns, hd, if_true] using ih true
        | false =>
            simp only [collapseRuns, hd, if_true]
            refine List.chain'_cons'.mpr ⟨?_, ih true⟩
            intro y hy
            exact Or.inr (collapseRuns_head_not ds y hy)
      · have hd' : p d = false := by simpa using hd
        simp only [collapseRuns, hd', Bool.false_eq_true, if_false]
        refine List.chain'_cons'.mpr ⟨?_, ih false⟩
        intro y _
        exact Or.inl hd'

theorem collapseRuns_eq_self {p : Char → Bool} {rep : Char} :
    ∀ l : List Char, (∀ c ∈ l, p c = true → c = rep) →
      List.Chain' (fun a c => p a = false ∨ p c = false) l →
      collapseRuns p rep false l = l := by
  intro l
  induction l with
  | nil => intro _ _; rfl
  | cons d ds ih =>
      intro hrep hch
      by_cases hd : p d = true
      · have hdr : d = rep := hrep d (List.mem_cons_self _ _) hd
        cases ds with
        | nil => simp [collapseRuns, hd, hdr]
        | cons e es =>
            have he : p e = false := by
              rcases (List.chain'_cons.mp hch).1 with h | h
              · rw [hd] at h; cases h
              · exact h
            simp only [collapseRuns, hd, if_true, he, Bool.false_eq_true,
              if_false]
            have ih' := ih (fun c hc hpc => hrep c (List.mem_cons_of_mem _ hc) hpc)
              (List.chain'_cons.mp hch).2
            simp only [collapseRuns, he, Bool.false_eq_true, if_false] at ih'
            rw [List.cons.injEq] at ih'
            rw [ih'.2, hdr]
      · have hd' : p d = false := by simpa using hd
        simp only [collapseRuns, hd', Bool.false_eq_true, if_false]
        refine congrArg _ (ih (fun c hc hpc => hrep c (List.mem_cons_of_mem _ hc) hpc) ?_)
        exact hch.tail

theorem dropWhile_eq_self_of_not {l : List Char} (h : ∀ c ∈ l, isJsWs c = false) :
    l.dropWhile isJsWs = l := by
  cases l with
  | nil => rfl
  | cons d ds =>
      have := h d (List.mem_cons_self _ _)
      simp [List.dropWhile, this]

theorem trimL_eq_self_of_not {l : List Char} (h : ∀ c ∈ l, isJsWs c = false) :
    trimL l = l := by
  unfold trimL
  rw [dropWhile_eq_self_of_not h]
  rw [dropWhile_eq_self_of_not (fun c hc => h c (List.mem_reverse.mp hc))]
  exact List.reverse_reverse l

theorem notWs_of_slugChar {c : Char} (h : isLowerAlnum c = true ∨ c = '-') :
    isJsWs c = false := by
  rcases h with h | h
  · simp only [isLowerAlnum, Bool.or_eq_true, Bool.and_eq_true,
      decide_eq_true_eq] at h
    simp only [isJsWs, Bool.or_eq_false_iff, Bool.and_eq_false_iff,
      beq_eq_false_iff_ne, ne_eq, decide_eq_false_iff_not, not_le]
    omega
  · subst h
    decide

theorem jsToLower_fixed_of_slugChar {c : Char} (h : isLowerAlnum c = true ∨ c = '-') :
    jsToLower c = c := by
  have : ¬(65 ≤ c.toNat ∧ c.toNat ≤ 90) := by
    rcases h with h | h
    · simp only [isLowerAlnum, Bool.or_eq_true, Bool.and_eq_true,
        decide_eq_true_eq] at h
      omega
    · subst h; decide
  simp [jsToLower, this]

theorem keptBySlug_of_slugChar {c : Char} (h : isLowerAlnum c = true ∨ c = '-') :
    keptBySlug c = true := by
  rcases h with h | h
  · simp [keptBySlug, h]
  · subst h; decide

/-- Every character of the slug-pipeline output is a lowercase ASCII letter,
a digit, or a hyphen. -/
theorem slugifyL_chars : ∀ (l : List Char), ∀ c ∈ slugifyL l,
    isLowerAlnum c = true ∨ c = '-' := by
  intro l c hc
  unfold slugifyL at hc
  have hc2 := List.dropWhile_sublist (l :=
    ((collapseRuns (fun c => c == '-') '-' false
      (collapseRuns isJsWs '-' false
        ((l.map jsToLower).filter keptBySlug))).dropWhile isJsWs).reverse)
    (p := isJsWs)
  have hmem : c ∈ collapseRuns (fun c => c == '-') '-' false
      (collapseRuns isJsWs '-' false ((l.map jsToLower).filter keptBySlug)) := by
    unfold trimL at hc
    have h1 := List.mem_reverse.mp hc
    have h2 := hc2.mem h1
    have h3 := List.mem_reverse.mp h2
    exact (List.dropWhile_sublist _).mem h3
  rcases collapseRuns_mem false _ c hmem with h | ⟨h1, _⟩
  · exact Or.inr h
  · rcases collapseRuns_mem false _ c h1 with h | ⟨h2, hnws⟩
    · exact Or.inr h
    · have hk := (List.mem_filter.mp h2).2
      simp only [keptBySlug, Bool.or_eq_true] at hk
      rcases hk with (h | h) | h
      · exact Or.inl h
      · rw [hnws] at h; cases h
      · exact Or.inr (by simpa using h)

/-- Since the whitespace-collapse step eliminates all whitespace, the final
`trim` of the slug pipeline is the identity. -/
theorem slugifyL_eq_collapse (l : List Char) :
    slugifyL l = collapseRuns (fun c => c == '-') '-' false
      (collapseRuns isJsWs '-' false ((l.map jsToLower).filter keptBySlug)) := by
  unfold slugifyL
  apply trimL_eq_self_of_not
  intro c hc
  rcases collapseRuns_mem false _ c hc with h | ⟨h1, _⟩
  · subst h; decide
  · rcases collapseRuns_mem false _ c h1 with h | ⟨_, hnws⟩
    · subst h; decide
    · exact hnws

/-- The slug pipeline never emits two adjacent hyphens. -/
theorem slugifyL_chain (l : List Char) :
    List.Chain' (fun a c => ¬(a = '-' ∧ c = '-')) (slugifyL l) := by
  rw [slugifyL_eq_collapse]
  refine (collapseRuns_chain false _).imp ?_
  intro a c h hac
  rcases h with h | h
  · rw [hac.1] at h; simp at h
  · rw [hac.2] at h; simp at h

theorem list_map_eq_self {f : Char → Char} :
    ∀ l : List Char, (∀ c ∈ l, f c = c) → l.map f = l := by
  intro l
  induction l with
  | nil => intro _; rfl
  | cons d ds ih =>
      intro h
      simp only [List.map_cons, h d (List.mem_cons_self _ _)]
      exact congrArg _ (ih (fun c hc => h c (List.mem_cons_of_mem _ hc)))

/-- The slug pipeline is idempotent at the character-list level. -/
theorem slugifyL_idem (l : List Char) : slugifyL (slugifyL l) = slugifyL l := by
  have hclass := slugifyL_chars l
  have hchain := slugifyL_chain l
  have hmap : (slugifyL l).map jsToLower = slugifyL l :=
    list_map_eq_self _ (fun c hc => jsToLower_fixed_of_slugChar (hclass c hc))
  have hfil : (slugifyL l).filter keptBySlug = slugifyL l :=
    List.filter_eq_self.mpr (fun c hc => keptBySlug_of_slugChar (hclass c hc))
  have hw : collapseRuns isJsWs '-' false (slugifyL l) = slugifyL l :=
    collapseRuns_eq_self_of_not false _
      (fun c hc => notWs_of_slugChar (hclass c hc))
  have hh : collapseRuns (fun c => c == '-') '-' false (slugifyL l) = slugifyL l := by
    refine collapseRuns_eq_self _ (fun c _ hpc => by simpa using hpc) ?_
    refine hchain.imp ?_
    intro a c h
    by_cases ha : a = '-'
    · by_cases hcc : c = '-'
      · exact absurd ⟨ha, hcc⟩ h
      · exact Or.inr (by simpa using hcc)
    · exact Or.inl (by simpa using ha)
  rw [slugifyL_eq_collapse (slugifyL l), hmap, hfil, hw, hh]

/-- C10: the slug-derivation function (`generateSlug` in
`src/frontmatter-validator.ts`, `slugify` in `src/build.ts`; identical
bodies) is idempotent, and its output contains only lowercase ASCII
letters, digits and hyphens, with no whitespace and no two consecutive
hyphens. -/
theorem slugify_idem_and_charclass :
    ∀ s : String,
      slugify (slugify s) = slugify s ∧
      (∀ c ∈ (slugify s).data, (isLowerAlnum c = true ∨ c = '-') ∧ isJsWs c = false) ∧
      List.Chain' (fun a c => ¬(a = '-' ∧ c = '-')) (slugify s).data := by
  intro s
  refine ⟨congrArg String.mk (slugifyL_idem s.data), ?_, slugifyL_chain s.data⟩
  intro c hc
  have h := slugifyL_chars s.data c hc
  exact ⟨h, notWs_of_slugChar h⟩

/-- Witness: the theorem instantiated at the concrete title used by the
spec scenario. -/
theorem slugify_idem_and_charclass_witness :
    slugify (slugify "Hello World") = slugify "Hello World" :=
  (slugify_idem_and_charclass "Hello World").1

/-- C3: validating `{title: "", date: "2025-01-01"}` yields
`isValid = false` (the empty required field; `loadPosts` drops any source
whose validation result has `isValid = false`), and validating
`{title: "Hi", date: "2025-01-01"}` with no slug stores the derived slug
"hi" in the returned metadata. -/
theorem validate_empty_title_and_derived_slug :
    (validate sampleEmptyTitle).isValid = false ∧
    (validate sampleHi).metadata.slug = some "hi" := by
  decide

/-- If any entry of the defaulted category list is outside the predefined
list, `validate` returns `isValid = false` (the
`CategoryValidationError` thrown by `validateCategories` is caught at
lines 100-112 and turned into an invalid result). -/
theorem validate_isValid_false_of_invalidCat (data : RawFM) (c : String)
    (hc : c ∈ finalCategories data) (hnc : c ∉ PREDEFINED_CATEGORIES) :
    (validate data).isValid = false := by
  have hne : invalidCategoriesOf (finalCategories data) ≠ [] :=
    List.ne_nil_of_mem (List.mem_filter.mpr ⟨hc, decide_eq_true hnc⟩)
  simp only [validate]
  rw [if_neg hne]

/-- C4: in the richer validator every post whose final category list
contains a label outside `TemplateEngine.PREDEFINED_CATEGORIES` is marked
invalid (hence excluded by `loadPosts`); the default sentinel
"uncategorized" is itself not predefined, so a post with absent categories
is always excluded. -/
theorem categories_gate :
    ("uncategorized" ∉ PREDEFINED_CATEGORIES) ∧
    (∀ (data : RawFM) (c : String), c ∈ finalCategories data →
      c ∉ PREDEFINED_CATEGORIES → (validate data).isValid = false) ∧
    (∀ data : RawFM, data.categories = none → (validate data).isValid = false) := by
  refine ⟨by decide, fun data c hc hnc => validate_isValid_false_of_invalidCat data c hc hnc, ?_⟩
  intro data hd
  refine validate_isValid_false_of_invalidCat data "uncategorized" ?_ (by decide)
  simp [finalCategories, catsValue, hd]

/-- Witness: `categories_gate` applied to the concrete frontmatter
`{title: "Hi", date: "2025-01-01"}` (no categories, so the sentinel
applies). -/
theorem categories_gate_witness : (validate sampleHi).isValid = false :=
  categories_gate.2.1 sampleHi "uncategorized" (by decide) (by decide)

theorem latestLoop_eq_maxTime : ∀ files : List (Option Nat),
    latestLoop files = maxTime files := by
  have haux : ∀ (files : List (Option Nat)) (acc : Nat),
      files.foldl
        (fun acc f => match f with
          | none => acc
          | some t => if acc < t then t else acc) acc =
      files.foldl (fun acc f => max acc (modTime f)) acc := by
    intro files
    induction files with
    | nil => intro acc; rfl
    | cons f fs ih =>
        intro acc
        simp only [List.foldl_cons]
        rw [ih]
        congr 1
        match f with
        | none => simp [modTime]
        | some t =>
            simp only [modTime, Option.getD_some]
            rcases Nat.lt_or_ge acc t with h | h
            · rw [if_pos h, Nat.max_eq_right (Nat.le_of_lt h)]
            · rw [if_neg (Nat.not_lt.mpr h), Nat.max_eq_left h]
  intro files
  exact haux files 0

/-- C1 counterexample: with the output file absent AND the main scss file
absent and no template/src/scss candidates, every time is 0 and
`needsRecompile` returns `false` (0 > 0 fails), so a missing output is NOT
unconditionally stale. -/
theorem stale_missing_output_counterexample :
    needsRecompile none none [] [] [] = false := by decide

/-- C1 (amended): when the output file does not exist (time 0), the
staleness check reports stale iff at least one candidate contributes a
strictly positive modification time; with an empty candidate set, or when
every candidate file is also missing, the result is `false`, not `true`. -/
theorem stale_missing_output_iff :
    ∀ (scss : Option Nat) (tf sf ssf : List (Option Nat)),
      needsRecompile scss none tf sf ssf = true ↔
        (0 < modTime scss ∨ 0 < maxTime (tf ++ sf) ∨ 0 < maxTime ssf) := by
  intro scss tf sf ssf
  simp [needsRecompile, modTime, Bool.or_eq_true, decide_eq_true_eq, or_assoc]

/-- Witness: with the output absent and an existing `main.scss` (mtime 5),
the check does report stale. -/
theorem stale_missing_output_iff_witness :
    needsRecompile (some 5) none [] [] [] = true :=
  (stale_missing_output_iff (some 5) [] [] []).mpr (Or.inl (by decide))

/-- C6: the staleness check returns stale iff the maximum modification
time over all candidates (missing files contributing 0) is strictly
greater than the output time; in particular equal timestamps are not
stale.  The same shape holds for the `compileStylesIfNeeded` variant in
`src/build.ts`. -/
theorem staleness_iff_max_newer :
    (∀ (scss output : Option Nat) (tf sf ssf : List (Option Nat)),
      needsRecompile scss output tf sf ssf = true ↔
        modTime output <
          max (modTime scss) (max (maxTime (tf ++ sf)) (maxTime ssf))) ∧
    (∀ t : Nat, needsRecompile (some t) (some t) [] [] [] = false) ∧
    (∀ (scssFiles : List (Option Nat)) (css : Option Nat),
      compileStylesStale scssFiles css = true ↔ modTime css < maxTime scssFiles) := by
  refine ⟨?_, ?_, ?_⟩
  · intro scss output tf sf ssf
    simp [needsRecompile, Bool.or_eq_true, decide_eq_true_eq, lt_max_iff,
      or_assoc]
  · intro t
    simp [needsRecompile, maxTime, modTime]
  · intro scssFiles css
    simp [compileStylesStale, latestLoop_eq_maxTime]

/-- Witness: a candidate (mtime 10) strictly newer than the output
(mtime 5) is reported stale. -/
theorem staleness_iff_max_newer_witness :
    needsRecompile (some 10) (some 5) [] [] [] = true :=
  (staleness_iff_max_newer.1 (some 10) (some 5) [] [] []).mpr (by decide)

/-- C9: whenever the external style-compile step fails, `compileIfNeeded`
still returns normally (the embedding is total and lands in the catch
branch), the previously compiled output files on disk are untouched, and
when the check did report stale the failure is logged as a warning. -/
theorem compileIfNeeded_failure_preserves_output :
    ∀ (scss output : Option Nat) (tf sf ssf : List (Option Nat))
      (isProduction : Bool) (disk : StyleDisk) (e : String),
      (compileIfNeeded scss output tf sf ssf isProduction disk (.error e)).1 = disk ∧
      (needsRecompile scss output tf sf ssf = true →
        (compileIfNeeded scss output tf sf ssf isProduction disk (.error e)).2 =
          ["SCSS compilation failed: " ++ e]) := by
  intro scss output tf sf ssf isProduction disk e
  by_cases h : needsRecompile scss output tf sf ssf = true
  · simp [compileIfNeeded, h]
  · simp only [Bool.not_eq_true] at h
    simp [compileIfNeeded, h]

/-- Witness: a concrete stale configuration with a failing compile leaves
the previous `main.css` exactly as it was and logs the warning. -/
theorem compileIfNeeded_failure_witness :
    (compileIfNeeded (some 5) none [] [] [] false ⟨some "old css", none⟩
        (.error "boom")).1 = ⟨some "old css", none⟩ ∧
    (compileIfNeeded (some 5) none [] [] [] false ⟨some "old css", none⟩
        (.error "boom")).2 = ["SCSS compilation failed: boom"] :=
  ⟨(compileIfNeeded_failure_preserves_output (some 5) none [] [] [] false
      ⟨some "old css", none⟩ "boom").1,
   (compileIfNeeded_failure_preserves_output (some 5) none [] [] [] false
      ⟨some "old css", none⟩ "boom").2 (by decide)⟩

/-- C5: a burst of N ≥ 1 notifications in which every notification arrives
within the debounce window of its predecessor (resetting the timer)
produces exactly one firing — one subsequent build — not N. -/
theorem debounce_coalesces :
    ∀ (delay : Nat) (times : List Nat), times ≠ [] →
      List.Chain' (fun a b => b < a + delay) times →
      debounceFires delay times = 1 := by
  intro delay times
  induction times with
  | nil => intro h _; cases h rfl
  | cons t1 rest ih =>
      intro _ hch
      cases rest with
      | nil => rfl
      | cons t2 rest2 =>
          have h12 := (List.chain'_cons.mp hch).1
          have htl := (List.chain'_cons.mp hch).2
          have : debounceFires delay (t1 :: t2 :: rest2) =
              (if t1 + delay ≤ t2 then 1 else 0) +
                debounceFires delay (t2 :: rest2) := rfl
          rw [this, if_neg (by omega), ih (by simp) htl]

/-- Witness: three notifications at 0, 50, 120 with delay 100 (each within
100 of the previous) fire exactly once. -/
theorem debounce_coalesces_witness : debounceFires 100 [0, 50, 120] = 1 :=
  debounce_coalesces 100 [0, 50, 120] (by simp)
    (List.chain'_cons.mpr ⟨by omega,
      List.chain'_cons.mpr ⟨by omega, List.chain'_singleton _⟩⟩)

theorem insertDesc_mem {x p : Post} : ∀ l : List Post,
    x ∈ insertDesc p l ↔ x = p ∨ x ∈ l := by
  intro l
  induction l with
  | nil => simp [insertDesc]
  | cons q qs ih =>
      by_cases h : p.dateVal < q.dateVal
      · simp only [insertDesc, if_pos h, List.mem_cons, ih]
        tauto
      · simp only [insertDesc, if_neg h, List.mem_cons]

theorem insertDesc_pairwise {p : Post} : ∀ l : List Post,
    l.Pairwise (fun a b => b.dateVal ≤ a.dateVal) →
    (insertDesc p l).Pairwise (fun a b => b.dateVal ≤ a.dateVal) := by
  intro l
  induction l with
  | nil => intro _; simp [insertDesc]
  | cons q qs ih =>
      intro hl
      rcases List.pairwise_cons.mp hl with ⟨hq, hqs⟩
      by_cases h : p.dateVal < q.dateVal
      · rw [insertDesc, if_pos h]
        refine List.pairwise_cons.mpr ⟨?_, ih hqs⟩
        intro x hx
        rcases (insertDesc_mem qs).mp hx with rfl | hx2
        · exact Nat.le_of_lt h
        · exact hq x hx2
      · rw [insertDesc, if_neg h]
        refine List.pairwise_cons.mpr ⟨?_, hl⟩
        intro x hx
        rcases List.mem_cons.mp hx with rfl | hx2
        · exact Nat.le_of_not_lt h
        · exact Nat.le_trans (hq x hx2) (Nat.le_of_not_lt h)

theorem sortPostsDesc_pairwise : ∀ l : List Post,
    (sortPostsDesc l).Pairwise (fun a b => b.dateVal ≤ a.dateVal) := by
  intro l
  induction l with
  | nil => simp [sortPostsDesc]
  | cons p ps ih => exact insertDesc_pairwise _ ih

theorem insertDesc_filter (d : Nat) (p : Post) : ∀ l : List Post,
    (insertDesc p l).filter (fun q => q.dateVal == d) =
      if p.dateVal == d then p :: l.filter (fun q => q.dateVal == d)
      else l.filter (fun q => q.dateVal == d) := by
  intro l
  induction l with
  | nil =>
      by_cases h : p.dateVal == d
      · simp [insertDesc, List.filter, h]
      · simp only [Bool.not_eq_true] at h
        simp [insertDesc, List.filter, h]
  | cons q qs ih =>
      by_cases hlt : p.dateVal < q.dateVal
      · rw [insertDesc, if_pos hlt]
        by_cases hp : p.dateVal == d
        · have hpd : p.dateVal = d := by simpa using hp
          have hq : (q.dateVal == d) = false := by
            simp only [beq_eq_false_iff_ne, ne_eq]
            omega
          rw [if_pos hp]
          simp only [List.filter_cons, hq, Bool.false_eq_true, if_false, ih,
            if_pos hp]
        · simp only [Bool.not_eq_true] at hp
          rw [if_neg (by simp [hp])]
          simp only [List.filter_cons, ih, hp, Bool.false_eq_true, if_false]
      · rw [insertDesc, if_neg hlt]
        by_cases hp : p.dateVal == d
        · rw [if_pos hp]
          simp [List.filter_cons, hp]
        · simp only [Bool.not_eq_true] at hp
          rw [if_neg (by simp [hp])]
          simp [List.filter_cons, hp]

theorem sortPostsDesc_filter (d : Nat) : ∀ l : List Post,
    (sortPostsDesc l).filter (fun q => q.dateVal == d) =
      l.filter (fun q => q.dateVal == d) := by
  intro l
  induction l with
  | nil => rfl
  | cons p ps ih =>
      rw [sortPostsDesc, insertDesc_filter]
      by_cases hp : p.dateVal == d
      · rw [if_pos hp, ih]
        simp [List.filter_cons, hp]
      · simp only [Bool.not_eq_true] at hp
        rw [if_neg (by simp [hp]), ih]
        simp [List.filter_cons, hp]

/-- C7: the collection returned by `loadPosts` is sorted date-descending —
for positions i < j the post at i has a date-time value ≥ the one at j,
so a strictly newer post always precedes a strictly older one — and for
every date value the posts carrying it appear in exactly their original
file-enumeration order (stability). -/
theorem loadPosts_sorted_stable :
    ∀ cands : List (Option Post),
      (loadPosts cands).Pairwise (fun a b => b.dateVal ≤ a.dateVal) ∧
      (∀ i j : Fin (loadPosts cands).length, i < j →
        ((loadPosts cands).get j).dateVal ≤ ((loadPosts cands).get i).dateVal) ∧
      (∀ d : Nat, (loadPosts cands).filter (fun q => q.dateVal == d) =
        (cands.filterMap id).filter (fun q => q.dateVal == d)) := by
  intro cands
  refine ⟨sortPostsDesc_pairwise _, ?_, fun d => sortPostsDesc_filter d _⟩
  intro i j hij
  exact List.pairwise_iff_get.mp (sortPostsDesc_pairwise _) i j hij

/-- Witness: loading one invalid source and two valid posts (older first)
puts the newer post first. -/
theorem loadPosts_sorted_stable_witness :
    ((loadPosts [some (mkPost 1), none, some (mkPost 2)]).get
        ⟨1, by decide⟩).dateVal ≤
      ((loadPosts [some (mkPost 1), none, some (mkPost 2)]).get
        ⟨0, by decide⟩).dateVal :=
  (loadPosts_sorted_stable [some (mkPost 1), none, some (mkPost 2)]).2.1
    ⟨0, by decide⟩ ⟨1, by decide⟩ (by decide)

theorem take_append_left : ∀ (a b : List Char) (n : Nat), n ≤ a.length →
    (a ++ b).take n = a.take n := by
  intro a
  induction a with
  | nil =>
      intro b n h
      have : n = 0 := Nat.le_zero.mp h
      simp [this]
  | cons x xs ih =>
      intro b n h
      cases n with
      | zero => simp
      | succ m =>
          simp only [List.cons_append, List.take_succ_cons]
          exact congrArg _ (ih b m (by simpa using h))

theorem rev_take_append_right (a b : List Char) (n : Nat) (h : n ≤ b.length) :
    (a ++ b).reverse.take n = b.reverse.take n := by
  rw [List.reverse_append]
  exact take_append_left _ _ _ (by simpa using h)

/-- C8: for any list of more than ten posts sorted date-descending, the
RSS and Atom generators emit exactly 10 items/entries, built from
`posts.take 10`, and every post in that slice is at least as recent as
every post left out. -/
theorem feeds_cap_ten :
    ∀ (siteUrl : String) (fmt iso : Nat → String) (posts : List Post),
      10 < posts.length →
      posts.Pairwise (fun a b => b.dateVal ≤ a.dateVal) →
      (generateRSSItems siteUrl fmt posts).length = 10 ∧
      (generateAtomEntries siteUrl iso posts).length = 10 ∧
      (∀ p ∈ rssLatest posts, ∀ q ∈ posts.drop 10, q.dateVal ≤ p.dateVal) := by
  intro siteUrl fmt iso posts hlen hpair
  refine ⟨?_, ?_, ?_⟩
  · simp only [generateRSSItems, rssLatest, List.length_map, List.length_take]
    omega
  · simp only [generateAtomEntries, atomLatest, List.length_map,
      List.length_take]
    omega
  · intro p hp q hq
    have hsplit := hpair
    rw [← List.take_append_drop 10 posts] at hsplit
    exact (List.pairwise_append.mp hsplit).2.2 p hp q hq

/-- Witness: with 15 date-descending posts both feeds carry exactly 10
items. -/
theorem feeds_cap_ten_witness :
    (generateRSSItems "https://domain.com" (fun _ => "d") fifteenPosts).length = 10 ∧
    (generateAtomEntries "https://domain.com" (fun _ => "d") fifteenPosts).length = 10 :=
  ⟨(feeds_cap_ten "https://domain.com" (fun _ => "d") (fun _ => "d")
      fifteenPosts (by decide) (by decide)).1,
   (feeds_cap_ten "https://domain.com" (fun _ => "d") (fun _ => "d")
      fifteenPosts (by decide) (by decide)).2.1⟩

/-- C2 counterexample: with zero posts `totalPages = ceil(0/5) = 0`
(there is no floor of 1 in the code), so the paginated-index generator
produces NO page at all — not one index page. -/
theorem zero_posts_counterexample :
    (generatePaginatedPages 5 ([] : List Post)).length = 0 ∧
    (generatePaginatedPages 20 ([] : List Post)).length = 0 ∧
    jsCeil 0 5 = 0 ∧
    ¬((generatePaginatedPages 5 ([] : List Post)).length = 1) := by
  decide

/-- C2 (amended): a zero-post build produces zero paginated index pages
(totalPages = 0), RSS/Atom documents with zero items but intact envelopes
(the xml declaration still opens them and the closing feed tag still ends
them), and a sitemap with exactly one url, the site root. -/
theorem zero_posts_build :
    ∀ (siteUrl todayStr now : String) (fmt iso : Nat → String),
      generatePaginatedPages 5 ([] : List Post) = [] ∧
      generatePaginatedPages 20 ([] : List Post) = [] ∧
      generateRSSItems siteUrl fmt ([] : List Post) = [] ∧
      generateAtomEntries siteUrl iso ([] : List Post) = [] ∧
      (generateRSS siteUrl fmt now []).data.take 38 =
        "<?xml version=\"1.0\" encoding=\"UTF-8\"?>".data ∧
      (generateRSS siteUrl fmt now []).data.reverse.take 6 =
        "</rss>".data.reverse ∧
      (generateAtom siteUrl iso now []).data.take 38 =
        "<?xml version=\"1.0\" encoding=\"utf-8\"?>".data ∧
      (generateAtom siteUrl iso now []).data.reverse.take 7 =
        "</feed>".data.reverse ∧
      (sitemapUrls 5 todayStr ([] : List Post)).length = 1 ∧
      (sitemapUrls 5 todayStr ([] : List Post)).map (fun u => u.loc) =
        [zenithBaseUrl] := by
  intro siteUrl todayStr now fmt iso
  refine ⟨rfl, rfl, rfl, rfl, ?_, ?_, ?_, ?_, rfl, rfl⟩
  · simp only [generateRSS, generateRSSItems, rssLatest, List.take_nil,
      List.map_nil, String.intercalate, String.data_append,
      List.append_assoc]
    rw [take_append_left _ _ _ (by decide)]
    decide
  · simp only [generateRSS, generateRSSItems, rssLatest, List.take_nil,
      List.map_nil, String.intercalate, String.data_append]
    rw [rev_take_append_right _ _ _ (by decide)]
    decide
  · simp only [generateAtom, generateAtomEntries, atomLatest, List.take_nil,
      List.map_nil, String.intercalate, String.data_append,
      List.append_assoc]
    rw [take_append_left _ _ _ (by decide)]
    decide
  · simp only [generateAtom, generateAtomEntries, atomLatest, List.take_nil,
      List.map_nil, String.intercalate, String.data_append]
    rw [rev_take_append_right _ _ _ (by decide)]
    decide

/-- Witness: the amended statement instantiated at concrete strings. -/
theorem zero_posts_build_witness :
    (sitemapUrls 5 "2025-01-01" ([] : List Post)).length = 1 :=
  (zero_posts_build "https://domain.com" "2025-01-01" "now"
    (fun _ => "d") (fun _ => "d")).2.2.2.2.2.2.2.2.1

end Zenith
